import Mathlib

/-!
Shallow embedding of davidl21/texttutor (src/app.py) for specification checking.

Python strings are modelled as lists of characters (`Str`).  The chunker
embeds `get_text_chunks` (src/app.py lines 30-41) together with the library
routine it invokes, `langchain.text_splitter.CharacterTextSplitter.split_text`
with its inherited `TextSplitter._merge_splits`, at the configured parameters
(separator `"\n"`, `chunk_size=1000`, `chunk_overlap=200`, `length_function=len`).
Text extraction embeds `get_pdf_text` (lines 12-22), with the external
`PdfReader` modelled by the page texts it yields (or a read error) per file.
The conversation engine built by `get_convo_chain` (lines 43-54) is a langchain
`ConversationalRetrievalChain` with a fresh `ConversationBufferMemory`; it is
modelled from the spec (section 4.4) as an index/retriever paired with an
ordered turn history.  The Streamlit session (`handle_user_input`, `main`,
lines 56-119) is modelled as a step function on the persistent
`st.session_state`, one application per script rerun, with key presence and
stored value tracked separately (`Option (Option _)`), since the source tests
membership (`"convo_chain" not in st.session_state`) as well as truthiness.
-/

/-- Python strings, modelled as lists of characters. -/
abbrev Str := List Char

/-- The newline character, the configured separator of the splitter. -/
def sepChar : Char := Char.ofNat 10

/-- The separator string `"\n"` passed to `CharacterTextSplitter`. -/
def nlStr : Str := [sepChar]

/-- Character class stripped by Python `str.strip()` (ASCII whitespace). -/
def pyIsSpace (c : Char) : Bool :=
  c.toNat == 32 || c.toNat == 9 || c.toNat == 10 ||
    c.toNat == 13 || c.toNat == 11 || c.toNat == 12

/-- Python `s.strip()`: drop leading and trailing whitespace. -/
def pyStrip (s : Str) : Str :=
  ((s.dropWhile pyIsSpace).reverse.dropWhile pyIsSpace).reverse

/-- Python `text.split(sep)` for a one-character separator: every occurrence
splits, empty pieces are kept, and the empty string splits to `[""]`. -/
def pySplit (sep : Char) : Str → List Str
  | [] => [[]]
  | c :: rest =>
    match pySplit sep rest with
    | [] => [[c]]
    | hd :: tl => if c = sep then [] :: hd :: tl else (c :: hd) :: tl

/-- Python `sep.join(docs)`. -/
def joinSep (sep : Str) : List Str → Str
  | [] => []
  | [d] => d
  | d :: d2 :: ds => d ++ sep ++ joinSep sep (d2 :: ds)

/-- `TextSplitter._join_docs`: join with the separator, strip, and drop the
result when it is empty. -/
def joinDocs (sep : Str) (docs : List Str) : Option Str :=
  let text := pyStrip (joinSep sep docs)
  if text.isEmpty then none else some text

/-- The `separator_len if len(current_doc) > 0 else 0` term of `_merge_splits`. -/
def sepLenIf (sep : Str) (cd : List Str) : Nat :=
  match cd with
  | [] => 0
  | _ :: _ => sep.length

/-- Condition of the carry-back `while` loop in `_merge_splits`:
`total > chunk_overlap or (total + len + sep > chunk_size and total > 0)`. -/
def popCond (S O : Nat) (sep : Str) (dLen : Nat) (cd : List Str) (total : Nat) : Bool :=
  decide (O < total) ||
    (decide (S < total + dLen + sepLenIf sep cd) && decide (0 < total))

/-- The carry-back `while` loop of `_merge_splits`: pop leading pieces of
`current_doc` (deducting one separator when more than one piece remains)
until the overlap budget and the size check are satisfied.  On an empty
`current_doc` the Python loop guard can no longer hold (under the invariant
`total` is then `0`), so the empty case returns directly. -/
def popLoop (S O : Nat) (sep : Str) (dLen : Nat) : List Str → Nat → List Str × Nat
  | [], total => ([], total)
  | c :: rest, total =>
    if popCond S O sep dLen (c :: rest) total then
      popLoop S O sep dLen rest (total - (c.length + sepLenIf sep rest))
    else (c :: rest, total)

/-- Loop state of `_merge_splits`: emitted `docs`, the pending `current_doc`
pieces, and the running `total` length. -/
structure MergeState where
  docs : List Str
  currentDoc : List Str
  total : Nat

/-- Emit `current_doc` into `docs` via `_join_docs`, skipping a `None` result. -/
def flushDocs (sep : Str) (docs : List Str) (cd : List Str) : List Str :=
  match joinDocs sep cd with
  | none => docs
  | some doc => docs ++ [doc]

/-- One iteration of the `for d in splits` loop of `_merge_splits`: when the
incoming piece would overflow `chunk_size` and `current_doc` is nonempty,
flush the current chunk and run the carry-back loop; then append the piece
and update `total` (adding a separator when `current_doc` was nonempty). -/
def mergeStep (S O : Nat) (sep : Str) (st : MergeState) (d : Str) : MergeState :=
  let dLen := d.length
  let st1 :=
    if S < st.total + dLen + sepLenIf sep st.currentDoc then
      match st.currentDoc with
      | [] => st
      | _ :: _ =>
        let docs1 := flushDocs sep st.docs st.currentDoc
        let p := popLoop S O sep dLen st.currentDoc st.total
        ⟨docs1, p.1, p.2⟩
    else st
  ⟨st1.docs, st1.currentDoc ++ [d], st1.total + dLen + sepLenIf sep st1.currentDoc⟩

/-- `TextSplitter._merge_splits`: fold the loop body over the pieces and flush
the final `current_doc`. -/
def mergeSplits (S O : Nat) (sep : Str) (splits : List Str) : List Str :=
  let st := splits.foldl (mergeStep S O sep) ⟨[], [], 0⟩
  flushDocs sep st.docs st.currentDoc

/-- `CharacterTextSplitter.split_text`: split on the separator, then merge. -/
def split_text (S O : Nat) (sep : Char) (text : Str) : List Str :=
  mergeSplits S O [sep] (pySplit sep text)

/-- `get_text_chunks` (src/app.py lines 30-41): the splitter at the configured
parameters, separator `"\n"`, `chunk_size=1000`, `chunk_overlap=200`. -/
def get_text_chunks (raw_text : Str) : List Str :=
  split_text 1000 200 sepChar raw_text

/-! ## Text extraction (src/app.py lines 12-22) -/

/-- Failure of the external `PdfReader` on an unreadable/corrupt document. -/
inductive PdfReadError where
  | readError
deriving DecidableEq

/-- An uploaded file, modelled by what `PdfReader` yields for it: a read
error, or the list of per-page texts that `page.extract_text()` returns in
native page order (a page with no extractable text yields the empty string). -/
def PdfFile : Type := Except PdfReadError (List Str)

/-- Body of the `for pdf in pdf_files` loop of `get_pdf_text`: open the file
with `PdfReader` (propagating its failure, and any earlier failure) and append
each page's extracted text to the accumulator in native page order. -/
def pdfStep (acc : Except PdfReadError Str) (pdf : PdfFile) : Except PdfReadError Str :=
  match acc with
  | .error e => .error e
  | .ok text =>
    match pdf with
    | .error e => .error e
    | .ok all_pages => .ok (all_pages.foldl (fun t page => t ++ page) text)

/-- `get_pdf_text` (src/app.py lines 12-22): concatenate every page of every
file into one accumulator string, in caller-provided file order and native
page order; a `PdfReader` failure propagates out of the loop. -/
def get_pdf_text (pdf_files : List PdfFile) : Except PdfReadError Str :=
  pdf_files.foldl pdfStep (.ok [])

/-- Whether an `Except` computation failed. -/
def isErr {ε α : Type} : Except ε α → Bool
  | .error _ => true
  | .ok _ => false

/-- Concatenation of a list of strings (no separator). -/
def concatAll : List Str → Str
  | [] => []
  | s :: rest => s ++ concatAll rest

/-! ## Conversation engine and Streamlit session (src/app.py lines 43-119)

The engine built by `get_convo_chain` is a langchain
`ConversationalRetrievalChain.from_llm(llm, retriever, memory)` with a fresh
`ConversationBufferMemory`; that library code is not part of this repository.
Modelled from the spec (section 4.4): the engine owns one retriever (the
vector index's query interface) and one ordered turn history; `ask` retrieves
context, sends one generation request carrying the question, the retrieved
chunks and the full prior history, and appends the new turn. -/

/-- The vector store's query interface (`vector_store.as_retriever()`):
a query maps to the retrieved chunk texts. -/
def Retriever : Type := Str → List Str

/-- One generation request, as the spec describes it: the new question, the
retrieved context chunks, and the full ordered conversation history. -/
structure Prompt where
  question : Str
  context : List Str
  history : List (Str × Str)

/-- Modelled from the spec: a `ConversationalRetrievalChain` instance — one
retriever plus one ordered conversation history (section 4.4's
Conversation Engine; the chain object itself is langchain library code,
absent from src/). -/
structure Engine where
  retriever : Retriever
  history : List (Str × Str)

/-- `get_convo_chain` (src/app.py lines 43-54): build the chain over the
store's retriever with a fresh (empty) `ConversationBufferMemory`. -/
def get_convo_chain (vector_store : Retriever) : Engine :=
  ⟨vector_store, []⟩

/-- Modelled from the spec: one `ask` turn (section 4.4).  `svc` is the
external generation service; the call returns the mutated engine, the
answer, and the prompt that was sent (exposed for observability). -/
def Engine.ask (svc : Prompt → Str) (e : Engine) (q : Str) :
    Engine × Str × Prompt :=
  let p : Prompt := ⟨q, e.retriever q, e.history⟩
  let ans := svc p
  (⟨e.retriever, e.history ++ [(q, ans)]⟩, ans, p)

/-- The `response['chat_history']` message list of a chain call: the turns
flattened into alternating human/AI message contents
(`ConversationBufferMemory` with `return_messages=True`). -/
def historyMessages : List (Str × Str) → List Str
  | [] => []
  | (q, a) :: rest => q :: a :: historyMessages rest

/-- Observable outcome of `handle_user_input`: the missing-key
`AttributeError` (convo_chain never initialized), the guarded
"Please upload a PDF first!" prompt, or the rendered message list. -/
inductive HandleOut where
  | missingKey
  | uploadPrompt
  | rendered (msgs : List Str)

/-- `st.session_state`, the per-session persistent store.  For each key the
outer `Option` records presence (`"k" not in st.session_state` is `none`),
the inner value is the stored Python value (`None` is `none`). -/
structure SessionState where
  convo_chain : Option (Option Engine)
  chat_history : Option (Option (List Str))

/-- `handle_user_input` (src/app.py lines 56-70): if the stored chain is
`None`, print the upload prompt and change nothing; otherwise invoke the
chain on the question (one generation-service call), store the returned
`chat_history`, and render it.  Returns the new state, the observable
output, and the number of generation-service calls made. -/
def handle_user_input (svc : Prompt → Str) (s : SessionState) (user_input : Str) :
    SessionState × HandleOut × Nat :=
  match s.convo_chain with
  | none => (s, .missingKey, 0)
  | some none => (s, .uploadPrompt, 0)
  | some (some chain) =>
    let r := chain.ask svc user_input
    let msgs := historyMessages r.1.history
    ({ convo_chain := some (some r.1), chat_history := some (some msgs) },
      .rendered msgs, 1)

/-- Failure of the external embedding/FAISS build in `get_vector_store`. -/
inductive IndexBuildError where
  | buildError
deriving DecidableEq

/-- A failure of some stage of the upload pipeline. -/
inductive UploadError where
  | extractionFailed
  | indexBuildFailed
deriving DecidableEq

/-- The upload-and-submit pipeline (src/app.py lines 105-119):
`get_pdf_text` then `get_text_chunks` then `get_vector_store` (the external
embedding/FAISS build, passed in as `build`) then `get_convo_chain`; the
engine is stored only after every stage succeeded. -/
def uploadPipeline (build : List Str → Except IndexBuildError Retriever)
    (pdf_files : List PdfFile) : Except UploadError Engine :=
  match get_pdf_text pdf_files with
  | .error _ => .error .extractionFailed
  | .ok raw_text =>
    match build (get_text_chunks raw_text) with
    | .error _ => .error .indexBuildFailed
    | .ok vector_store => .ok (get_convo_chain vector_store)

/-- User interaction driving one Streamlit rerun of `main`: the text box
content (empty means no question submitted), whether the Upload button was
the trigger, and the files in the uploader. -/
structure RerunInput where
  user_input : Str
  upload_clicked : Bool
  pdf_files : List PdfFile

/-- Result of one rerun: the persisted session state, the output of the
question handler if it ran, the generation calls made, and whether an
uncaught exception aborted the script (state mutations already made persist). -/
structure RerunResult where
  state : SessionState
  out : Option HandleOut
  genCalls : Nat
  aborted : Bool

/-- Lines 81-82 of `main`: `if user_input: handle_user_input(user_input)`.
An access to a missing `convo_chain` key raises, aborting the rerun. -/
def questionPhase (svc : Prompt → Str) (s : SessionState) (q : Str) :
    SessionState × Option HandleOut × Nat × Bool :=
  if q = [] then (s, none, 0, false)
  else
    let r := handle_user_input svc s q
    (r.1, some r.2.1, r.2.2,
      match r.2.1 with
      | .missingKey => true
      | _ => false)

/-- Lines 90-93 of `main`, exactly as written in the source: if the
`convo_chain` key is absent, set `convo_chain` to `None`; if the
`chat_history` key is absent, AGAIN set `convo_chain` to `None` — the
second branch assigns `convo_chain`, not `chat_history`, in the source. -/
def initKeys (s : SessionState) : SessionState :=
  let s1 :=
    match s.convo_chain with
    | none => { s with convo_chain := some none }
    | some _ => s
  match s1.chat_history with
  | none => { s1 with convo_chain := some none }
  | some _ => s1

/-- One Streamlit rerun of `main` (src/app.py lines 73-119): question
handling (lines 81-82), then session-key initialization (lines 90-93), then
the Upload branch (lines 105-119), which stores a new engine only when the
whole pipeline succeeded and leaves the state of line 105 untouched when a
stage raised. -/
def runRerun (svc : Prompt → Str)
    (build : List Str → Except IndexBuildError Retriever)
    (s : SessionState) (inp : RerunInput) : RerunResult :=
  match questionPhase svc s inp.user_input with
  | (s1, out, calls, true) => ⟨s1, out, calls, true⟩
  | (s1, out, calls, false) =>
    let s2 := initKeys s1
    if inp.upload_clicked then
      match uploadPipeline build inp.pdf_files with
      | .error _ => ⟨s2, out, calls, true⟩
      | .ok engine => ⟨{ s2 with convo_chain := some (some engine) }, out, calls, false⟩
    else ⟨s2, out, calls, false⟩

/-- A trivial generation service, for concrete witnesses. -/
def constSvc : Prompt → Str := fun _ => []

/-- A trivial always-succeeding index build, for concrete witnesses. -/
def constBuild : List Str → Except IndexBuildError Retriever :=
  fun _ => .ok (fun _ => [])

/-! ## Concrete inputs and proof-level predicates -/

/-- The character `a`, for concrete inputs. -/
def aChar : Char := Char.ofNat 97

/-- The character `b`, for concrete inputs. -/
def bChar : Char := Char.ofNat 98

/-- A text whose first separator-split unit (1001 characters) exceeds the
configured chunk size 1000: `"a" * 1001 + "\n" + "b"`. -/
def oversizeText : Str := List.replicate 1001 aChar ++ sepChar :: [bChar]

/-- A text of two 600-character units: `"a" * 600 + "\n" + "b" * 600`.  Both
units fit in a chunk, but neither whole unit fits in the 200-character
overlap budget, so no text is carried between the two chunks. -/
def noCarryText : Str := List.replicate 600 aChar ++ sepChar :: List.replicate 600 bChar

/-- Every string in the list has length at most `S`. -/
def allLe (S : Nat) (l : List Str) : Prop := ∀ c ∈ l, c.length ≤ S

/-- Invariant of the `_merge_splits` loop when every split unit has length at
most `S`: `total` is the joined length of `current_doc`; either `total` is
within the budget, or `current_doc` is an empty unit followed by one unit
(the one shape that exceeds `S`, by exactly the separator, and whose join
starts with the separator so that stripping recovers the bound); and every
emitted chunk is within the budget. -/
def MergeInv (S : Nat) (st : MergeState) : Prop :=
  st.total = (joinSep nlStr st.currentDoc).length ∧
  (st.total ≤ S ∨ ∃ d0, st.currentDoc = [[], d0] ∧ d0.length ≤ S) ∧
  allLe S st.docs

/-! ## Supporting lemmas: text extraction -/

lemma foldl_append_eq (pages : List Str) :
    ∀ t : Str, pages.foldl (fun t page => t ++ page) t = t ++ concatAll pages := by
  induction pages with
  | nil => intro t; simp [concatAll]
  | cons p rest ih =>
    intro t
    simp [concatAll, ih, List.append_assoc]

lemma pdfStep_foldl_error (pdf_files : List PdfFile) (e : PdfReadError) :
    pdf_files.foldl pdfStep (.error e) = .error e := by
  induction pdf_files with
  | nil => rfl
  | cons f rest ih => simpa [pdfStep] using ih

lemma pdfStep_foldl_ok (pagess : List (List Str)) :
    ∀ t : Str, (pagess.map Except.ok).foldl pdfStep (.ok t)
      = .ok (t ++ concatAll (pagess.map concatAll)) := by
  induction pagess with
  | nil => intro t; simp [concatAll]
  | cons pages rest ih =>
    intro t
    simp only [List.map_cons, List.foldl_cons, pdfStep, foldl_append_eq, ih,
      concatAll, List.append_assoc]

lemma pdfStep_foldl_isErr (pdf_files : List PdfFile) :
    ∀ t : Str, (∃ f ∈ pdf_files, isErr f = true) →
      isErr (pdf_files.foldl pdfStep (.ok t)) = true := by
  induction pdf_files with
  | nil => intro t h; simp at h
  | cons f rest ih =>
    intro t h
    match f with
    | .error e =>
      simp only [List.foldl_cons, pdfStep, pdfStep_foldl_error]
      rfl
    | .ok pages =>
      rcases h with ⟨g, hg, hge⟩
      rcases List.mem_cons.mp hg with rfl | hg2
      · exact absurd hge (by simp [isErr])
      · simpa [pdfStep] using ih _ ⟨g, hg2, hge⟩

/-! ## Supporting lemmas: upload pipeline and rerun -/

lemma uploadPipeline_ok_history (build : List Str → Except IndexBuildError Retriever)
    (pdf_files : List PdfFile) (e : Engine)
    (h : uploadPipeline build pdf_files = .ok e) : e.history = [] := by
  unfold uploadPipeline at h
  cases hr : get_pdf_text pdf_files with
  | error err => rw [hr] at h; exact absurd h (by simp)
  | ok raw =>
    rw [hr] at h
    dsimp only at h
    cases hb : build (get_text_chunks raw) with
    | error err => rw [hb] at h; exact absurd h (by simp)
    | ok vs =>
      rw [hb] at h
      dsimp only at h
      cases h
      rfl

/-! ## Supporting lemmas: the splitter -/

lemma pyIsSpace_sepChar : pyIsSpace sepChar = true := rfl

lemma pyStrip_length_le (s : Str) : (pyStrip s).length ≤ s.length := by
  unfold pyStrip
  rw [List.length_reverse]
  refine le_trans (List.dropWhile_sublist _).length_le ?_
  rw [List.length_reverse]
  exact (List.dropWhile_sublist _).length_le

lemma sepLenIf_nil : sepLenIf nlStr [] = 0 := rfl

lemma sepLenIf_cons (x : Str) (xs : List Str) : sepLenIf nlStr (x :: xs) = 1 := rfl

lemma pyStrip_cons_space (c : Char) (s : Str) (h : pyIsSpace c = true) :
    pyStrip (c :: s) = pyStrip s := by
  unfold pyStrip
  rw [List.dropWhile_cons, if_pos h]

lemma joinSep_length_cons (d : Str) (ds : List Str) (h : ds ≠ []) :
    (joinSep nlStr (d :: ds)).length = d.length + 1 + (joinSep nlStr ds).length := by
  cases ds with
  | nil => exact absurd rfl h
  | cons d2 ds2 =>
    simp only [joinSep, nlStr, List.append_assoc, List.length_append,
      List.length_cons, List.length_nil]
    omega

lemma joinSep_length_append_single (cd : List Str) (d : Str) (h : cd ≠ []) :
    (joinSep nlStr (cd ++ [d])).length
      = (joinSep nlStr cd).length + 1 + d.length := by
  induction cd with
  | nil => exact absurd rfl h
  | cons c cs ih =>
    cases cs with
    | nil =>
      simp only [List.cons_append, List.nil_append]
      rw [joinSep_length_cons _ _ (by simp)]
      rfl
    | cons c2 cs2 =>
      have h2 : (c2 :: cs2 : List Str) ≠ [] := by simp
      rw [List.cons_append, joinSep_length_cons _ _ (by simp),
        ih h2, joinSep_length_cons _ _ h2]
      omega

lemma joinSep_length_eq_zero (cd : List Str)
    (h : (joinSep nlStr cd).length = 0) : cd = [] ∨ cd = [[]] := by
  cases cd with
  | nil => exact Or.inl rfl
  | cons c cs =>
    cases cs with
    | nil =>
      right
      have : c.length = 0 := h
      rw [List.length_eq_zero] at this
      rw [this]
    | cons c2 cs2 =>
      exfalso
      rw [joinSep_length_cons _ _ (by simp)] at h
      omega

lemma popLoop_spec (S O dLen : Nat) :
    ∀ (cd : List Str) (total : Nat), total = (joinSep nlStr cd).length →
      (popLoop S O nlStr dLen cd total).2
          = (joinSep nlStr (popLoop S O nlStr dLen cd total).1).length ∧
        (popLoop S O nlStr dLen cd total).2 ≤ O ∧
        ((popLoop S O nlStr dLen cd total).2 + dLen
            + sepLenIf nlStr (popLoop S O nlStr dLen cd total).1 ≤ S ∨
          (popLoop S O nlStr dLen cd total).2 = 0) := by
  intro cd
  induction cd with
  | nil =>
    intro total ht
    have h0 : total = 0 := ht
    subst h0
    simp only [popLoop]
    exact ⟨rfl, Nat.zero_le O, Or.inr trivial⟩
  | cons c rest ih =>
    intro total ht
    simp only [popLoop]
    by_cases hc : popCond S O nlStr dLen (c :: rest) total = true
    · rw [if_pos hc]
      apply ih
      cases rest with
      | nil =>
        have hce : total = c.length := ht
        rw [sepLenIf_nil]
        have : (joinSep nlStr ([] : List Str)).length = 0 := rfl
        omega
      | cons r rs =>
        rw [joinSep_length_cons _ _ (by simp)] at ht
        rw [sepLenIf_cons]
        omega
    · rw [if_neg hc]
      simp only [popCond, Bool.or_eq_true, Bool.and_eq_true, decide_eq_true_eq,
        not_or, not_and, sepLenIf_cons] at hc
      obtain ⟨hcO, hcS⟩ := hc
      refine ⟨ht, by omega, ?_⟩
      by_cases hz : total = 0
      · exact Or.inr hz
      · left
        have h0 : 0 < total := Nat.pos_of_ne_zero hz
        have hle : ¬ S < total + dLen + 1 := fun hS => hcS hS h0
        simp only [sepLenIf_cons]
        omega

lemma flushDocs_allLe (S : Nat) (docs cd : List Str)
    (h2 : (joinSep nlStr cd).length ≤ S ∨ ∃ d0, cd = [[], d0] ∧ d0.length ≤ S)
    (h3 : allLe S docs) : allLe S (flushDocs nlStr docs cd) := by
  have hbound : (pyStrip (joinSep nlStr cd)).length ≤ S := by
    rcases h2 with hle | ⟨d0, rfl, hd0⟩
    · exact le_trans (pyStrip_length_le _) hle
    · have hj : joinSep nlStr [[], d0] = sepChar :: d0 := rfl
      rw [hj, pyStrip_cons_space _ _ pyIsSpace_sepChar]
      exact le_trans (pyStrip_length_le _) hd0
  unfold flushDocs joinDocs
  by_cases he : (pyStrip (joinSep nlStr cd)).isEmpty = true
  · simp only [he, if_true]
    exact h3
  · simp only [he, if_false]
    intro c hc
    rcases List.mem_append.mp hc with hc1 | hc2
    · exact h3 c hc1
    · rw [List.mem_singleton.mp hc2]
      exact hbound

lemma mergeStep_inv (S O : Nat) (docs cd : List Str) (total : Nat) (d : Str)
    (h1 : total = (joinSep nlStr cd).length)
    (h2 : total ≤ S ∨ ∃ d0, cd = [[], d0] ∧ d0.length ≤ S)
    (h3 : allLe S docs) (hd : d.length ≤ S) :
    MergeInv S (mergeStep S O nlStr ⟨docs, cd, total⟩ d) := by
  unfold mergeStep
  dsimp only
  by_cases hg : S < total + d.length + sepLenIf nlStr cd
  · rw [if_pos hg]
    cases cd with
    | nil =>
      have h0 : total = 0 := h1
      subst h0
      refine ⟨?_, ?_, h3⟩
      · simp [sepLenIf_nil, joinSep]
      · left
        simp only [sepLenIf_nil]
        omega
    | cons c rest =>
      have hp := popLoop_spec S O d.length (c :: rest) total h1
      obtain ⟨hp1, hp2, hp3⟩ := hp
      set q := popLoop S O nlStr d.length (c :: rest) total with hq
      refine ⟨?_, ?_, ?_⟩
      · -- total field of the result
        show q.2 + d.length + sepLenIf nlStr q.1 = (joinSep nlStr (q.1 ++ [d])).length
        cases hq1 : q.1 with
        | nil =>
          have : q.2 = 0 := by rw [hp1, hq1]; rfl
          simp [this, hq1, sepLenIf_nil, joinSep]
        | cons x xs =>
          rw [joinSep_length_append_single _ _ (by simp), sepLenIf_cons, ← hq1, hp1]
          omega
      · -- budget disjunction for the new current_doc
        show q.2 + d.length + sepLenIf nlStr q.1 ≤ S ∨
          ∃ d0, q.1 ++ [d] = [[], d0] ∧ d0.length ≤ S
        rcases hp3 with hle | hz
        · exact Or.inl hle
        · have hj0 : (joinSep nlStr q.1).length = 0 := by rw [← hp1, hz]
          rcases joinSep_length_eq_zero _ hj0 with hnil | hone
          · left
            rw [hnil, sepLenIf_nil]
            omega
          · right
            exact ⟨d, by rw [hone]; rfl, hd⟩
      · -- emitted chunks stay bounded
        show allLe S (flushDocs nlStr docs (c :: rest))
        exact flushDocs_allLe S docs (c :: rest) (by rw [← h1]; exact h2) h3
  · rw [if_neg hg]
    refine ⟨?_, ?_, h3⟩
    · show total + d.length + sepLenIf nlStr cd = (joinSep nlStr (cd ++ [d])).length
      cases cd with
      | nil =>
        have h0 : total = 0 := h1
        simp [h0, sepLenIf_nil, joinSep]
      | cons x xs =>
        rw [joinSep_length_append_single _ _ (by simp), sepLenIf_cons, h1]
        omega
    · left
      show total + d.length + sepLenIf nlStr cd ≤ S
      omega

lemma foldl_mergeInv (S O : Nat) (splits : List Str) (hall : allLe S splits) :
    ∀ st : MergeState, MergeInv S st →
      MergeInv S (splits.foldl (mergeStep S O nlStr) st) := by
  induction splits with
  | nil => intro st h; exact h
  | cons d rest ih =>
    intro st h
    have hd : d.length ≤ S := hall d (by simp)
    have hrest : allLe S rest := fun c hc => hall c (by simp [hc])
    obtain ⟨docs, cd, total⟩ := st
    exact ih hrest _ (mergeStep_inv S O docs cd total d h.1 h.2.1 h.2.2 hd)

lemma pySplit_not_mem (sep : Char) (t : Str) (h : sep ∉ t) :
    pySplit sep t = [t] := by
  induction t with
  | nil => rfl
  | cons c rest ih =>
    have hc : ¬ c = sep := fun hcs => h (hcs ▸ List.mem_cons_self c rest)
    have hrest : sep ∉ rest := fun hm => h (List.mem_cons_of_mem _ hm)
    simp only [pySplit, ih hrest]
    rw [if_neg hc]

lemma dropWhile_all_nonspace (s : Str) (h : ∀ c ∈ s, pyIsSpace c = false) :
    s.dropWhile pyIsSpace = s := by
  cases s with
  | nil => rfl
  | cons c cs =>
    rw [List.dropWhile_cons, if_neg]
    rw [h c (List.mem_cons_self c cs)]
    simp

lemma pyStrip_all_nonspace (s : Str) (h : ∀ c ∈ s, pyIsSpace c = false) :
    pyStrip s = s := by
  unfold pyStrip
  rw [dropWhile_all_nonspace s h,
    dropWhile_all_nonspace s.reverse (fun c hc => h c (List.mem_reverse.mp hc)),
    List.reverse_reverse]

lemma get_text_chunks_no_sep (t : Str) (hgt : 1000 < t.length)
    (hsep : sepChar ∉ t) :
    get_text_chunks t = if (pyStrip t).isEmpty then [] else [pyStrip t] := by
  have hsplit : pySplit sepChar t = [t] := pySplit_not_mem sepChar t hsep
  show mergeSplits 1000 200 nlStr (pySplit sepChar t) = _
  rw [hsplit]
  unfold mergeSplits
  simp only [List.foldl]
  unfold mergeStep
  dsimp only
  rw [if_pos (by rw [sepLenIf_nil]; omega)]
  dsimp only
  show flushDocs nlStr [] ([] ++ [t]) = _
  rw [List.nil_append]
  unfold flushDocs joinDocs
  simp only [joinSep]
  by_cases he : (pyStrip t).isEmpty = true
  · simp [he]
  · simp [he]

/-! ## Claims -/

/-- Claim C1 (code_bug): the claim states that once an upload has succeeded,
no interaction other than a new upload replaces or clears the stored engine.
The source violates it: line 93 of src/app.py reads
`if "chat_history" not in st.session_state: st.session_state.convo_chain = None`,
assigning `convo_chain` (not `chat_history`).  Starting from the state right
after a successful upload with no question asked yet (`convo_chain` holds an
engine, the `chat_history` key was never created), any rerun that is not an
upload — here: empty text box, no upload click — clears the stored engine to
`None`. -/
theorem c1_rerun_clears_engine (svc : Prompt → Str)
    (build : List Str → Except IndexBuildError Retriever) (e : Engine) :
    (runRerun svc build ⟨some (some e), none⟩ ⟨[], false, []⟩).state.convo_chain
      = some none := rfl

/-- Claim C2: asking while no upload has succeeded (`convo_chain` holds
Python `None`) is a guarded no-op: the handler returns the unchanged session
state, the user-facing "Please upload a PDF first!" prompt (the observable
form of `NotInitializedError`), and makes zero generation-service calls. -/
theorem c2_ask_empty_guarded (svc : Prompt → Str) (s : SessionState) (q : Str)
    (h : s.convo_chain = some none) :
    handle_user_input svc s q = (s, HandleOut.uploadPrompt, 0) := by
  obtain ⟨cc, ch⟩ := s
  cases h
  rfl

/-- Witness for C2 at a concrete state and question. -/
theorem c2_ask_empty_guarded_witness :
    handle_user_input constSvc ⟨some none, none⟩ [aChar]
      = (⟨some none, none⟩, HandleOut.uploadPrompt, 0) :=
  c2_ask_empty_guarded constSvc ⟨some none, none⟩ [aChar] rfl


/-- Claim C3 (counterexample): a concrete 2500-character input with no
separator occurrence — 2500 letters `a` — yields one single chunk, not the
claimed 3 chunks of sizes 1000, 1000 and 700.  The whole input is a single
separator-split unit, and `_merge_splits` never subdivides a unit. -/
theorem c3_chunker_2500_counterexample :
    (List.replicate 2500 aChar).length = 2500 ∧
      sepChar ∉ List.replicate 2500 aChar ∧
      (get_text_chunks (List.replicate 2500 aChar)).length = 1 := by
  have hsep : sepChar ∉ List.replicate 2500 aChar :=
    fun hm => absurd (List.eq_of_mem_replicate hm) (by decide)
  refine ⟨by rw [List.length_replicate], hsep, ?_⟩
  have hstrip : pyStrip (List.replicate 2500 aChar) = List.replicate 2500 aChar :=
    pyStrip_all_nonspace _ (fun c hc => by rw [List.eq_of_mem_replicate hc]; rfl)
  rw [get_text_chunks_no_sep _ (by rw [List.length_replicate]; omega) hsep, hstrip,
    if_neg (by rw [List.isEmpty_iff_length_eq_zero, List.length_replicate]; omega)]
  rfl

/-- Claim C3 (amended): with the configured `S=1000`, `O=200` and separator
`"\n"`, any 2500-character input with no separator occurrence is a single
split unit; the splitter emits an oversized unit whole, so the output is one
chunk — the whitespace-stripped input — and no chunk at all when the input is
entirely whitespace; never 3 chunks of 1000/1000/700. -/
theorem c3_single_oversized_chunk (t : Str) (hlen : t.length = 2500)
    (hsep : sepChar ∉ t) :
    get_text_chunks t = if (pyStrip t).isEmpty then [] else [pyStrip t] :=
  get_text_chunks_no_sep t (by omega) hsep

/-- Witness for the amended C3 at the concrete 2500-letter input. -/
theorem c3_single_oversized_chunk_witness :
    get_text_chunks (List.replicate 2500 aChar)
      = if (pyStrip (List.replicate 2500 aChar)).isEmpty then []
        else [pyStrip (List.replicate 2500 aChar)] :=
  c3_single_oversized_chunk (List.replicate 2500 aChar) (by rw [List.length_replicate])
    (fun hm => absurd (List.eq_of_mem_replicate hm) (by decide))

set_option maxRecDepth 20000 in
/-- Claim C4 (counterexample): both clauses of the claim fail on the code.
On `oversizeText` (`"a"*1001 ++ "\n" ++ "b"`) a non-final chunk has length
1001 > 1000, refuting the size bound.  On `noCarryText`
(`"a"*600 ++ "\n" ++ "b"*600`) — where every unit fits the chunk size, and
carrying 200 characters into the 600-character second chunk would fit `S` —
the second chunk does not begin with the last 200 characters of the first:
the splitter carries only whole split units whose total is at most `O=200`,
and the 600-character unit does not fit that budget, so nothing is carried. -/
theorem c4_chunk_invariant_counterexample :
    ¬ (∀ chunk ∈ (get_text_chunks oversizeText).dropLast, chunk.length ≤ 1000) ∧
      (get_text_chunks noCarryText).length = 2 ∧
      List.isPrefixOf
        (((get_text_chunks noCarryText).getD 0 []).drop
          (((get_text_chunks noCarryText).getD 0 []).length - 200))
        ((get_text_chunks noCarryText).getD 1 []) = false := by
  refine ⟨?_, ?_, ?_⟩ <;> decide

/-- Claim C4 (amended): for the configured `S=1000` and `O=200`, if every
separator-split unit of the input has length at most `S`, then every chunk
produced — including the last — has length at most `S`.  The exact-overlap
clause of the original claim does not hold and is dropped: the splitter
carries forward only whole split units totalling at most `O` characters,
possibly none (see the counterexample). -/
theorem c4_chunk_size_amended (text : Str)
    (hunits : ∀ u ∈ pySplit sepChar text, u.length ≤ 1000) :
    ∀ chunk ∈ get_text_chunks text, chunk.length ≤ 1000 := by
  have h0 : MergeInv 1000 ⟨[], [], 0⟩ :=
    ⟨rfl, Or.inl (Nat.zero_le 1000), fun c hc => absurd hc (List.not_mem_nil c)⟩
  have h := foldl_mergeInv 1000 200 (pySplit sepChar text) hunits ⟨[], [], 0⟩ h0
  show allLe 1000 (flushDocs nlStr
    ((pySplit sepChar text).foldl (mergeStep 1000 200 nlStr) ⟨[], [], 0⟩).docs
    ((pySplit sepChar text).foldl (mergeStep 1000 200 nlStr) ⟨[], [], 0⟩).currentDoc)
  exact flushDocs_allLe 1000 _ _ (by rw [← h.1]; exact h.2.1) h.2.2

/-- Witness for the amended C4 at a concrete input whose single unit is
within the size bound. -/
theorem c4_chunk_size_amended_witness :
    (∀ u ∈ pySplit sepChar [aChar], u.length ≤ 1000) ∧
      ∀ chunk ∈ get_text_chunks [aChar], chunk.length ≤ 1000 :=
  ⟨by decide, c4_chunk_size_amended [aChar] (by decide)⟩

/-- Claim C5: from a freshly initialized engine, two successful asks leave
exactly the two turns in call order in the history; the prompt sent to the
generation service for the second ask carries the first turn (question and
answer) as its history context; and in general one successful ask appends
exactly one turn.  The engine is modelled from the spec (section 4.4); the
chain and memory objects are langchain library code absent from src/. -/
theorem c5_two_asks_history (svc : Prompt → Str) (r : Retriever) (q1 q2 : Str) :
    (((get_convo_chain r).ask svc q1).1.ask svc q2).1.history
        = [(q1, ((get_convo_chain r).ask svc q1).2.1),
           (q2, (((get_convo_chain r).ask svc q1).1.ask svc q2).2.1)] ∧
      ((((get_convo_chain r).ask svc q1).1.ask svc q2).2.2).history
        = [(q1, ((get_convo_chain r).ask svc q1).2.1)] ∧
      ∀ (e : Engine) (q : Str),
        (e.ask svc q).1.history = e.history ++ [(q, (e.ask svc q).2.1)] :=
  ⟨rfl, rfl, fun _ _ => rfl⟩

/-- Claim C6: a rerun whose upload pipeline succeeds stores exactly the
freshly built engine, whose history is empty — whatever session state (prior
engine, accumulated turns) was there before; nothing of the prior index or
history is merged into it.  The stored engine depends only on the uploaded
files and the build, not on the prior state `s`. -/
theorem c6_reupload_resets (svc : Prompt → Str)
    (build : List Str → Except IndexBuildError Retriever)
    (s : SessionState) (pdf_files : List PdfFile) (engine : Engine)
    (hup : uploadPipeline build pdf_files = .ok engine) :
    (runRerun svc build s ⟨[], true, pdf_files⟩).state.convo_chain
        = some (some engine) ∧ engine.history = [] := by
  refine ⟨?_, uploadPipeline_ok_history build pdf_files engine hup⟩
  unfold runRerun
  rw [show questionPhase svc s (RerunInput.mk [] true pdf_files).user_input
      = (s, none, 0, false) from rfl]
  simp [hup]

/-- Witness for C6: a second upload over a session whose engine already holds
one conversation turn; the stored engine is the fresh one with empty
history. -/
theorem c6_reupload_resets_witness :
    (runRerun constSvc constBuild
        ⟨some (some ⟨fun _ => [], [([aChar], [bChar])]⟩), some (some [[aChar], [bChar]])⟩
        ⟨[], true, []⟩).state.convo_chain
      = some (some (get_convo_chain (fun _ => []))) ∧
      (get_convo_chain (fun _ => [])).history = [] :=
  c6_reupload_resets constSvc constBuild
    ⟨some (some ⟨fun _ => [], [([aChar], [bChar])]⟩), some (some [[aChar], [bChar]])⟩
    [] (get_convo_chain (fun _ => [])) rfl

/-- Claim C7 (code_bug): the claim states that a failed upload pipeline
leaves the stored engine exactly as it was, preserving a prior READY
session.  The pipeline itself (src/app.py lines 107-119) indeed commits
nothing on failure — the engine is assigned only after every stage — but the
claim still fails on the code: in a rerun that uploads an unreadable file
from the state right after a successful upload with no question asked
(`chat_history` key absent), line 93's mistaken assignment clears the stored
engine to `None` before the pipeline runs, so the prior READY session is
lost: after the failed upload the state holds `None`, not the prior
engine. -/
theorem c7_failed_upload_loses_session (svc : Prompt → Str)
    (build : List Str → Except IndexBuildError Retriever) (e : Engine) :
    (runRerun svc build ⟨some (some e), none⟩
        ⟨[], true, [Except.error PdfReadError.readError]⟩).state.convo_chain
        = some none ∧
      (runRerun svc build ⟨some (some e), none⟩
        ⟨[], true, [Except.error PdfReadError.readError]⟩).aborted = true :=
  ⟨rfl, rfl⟩

/-- Claim C8 (counterexample): a readable document with one page and no
extractable text does not make `get_pdf_text` fail — it returns the empty
string successfully, so extraction does not fail with an `ExtractionError`
whenever a document contains no extractable text. -/
theorem c8_no_text_counterexample :
    get_pdf_text [Except.ok [([] : Str)]] = Except.ok [] ∧
      isErr (get_pdf_text [Except.ok [([] : Str)]]) = false :=
  ⟨rfl, rfl⟩

/-- Claim C8 (amended): extraction fails — propagating the PDF reader's
error — whenever some uploaded document is unreadable/corrupt; a document
with no extractable text does not cause a failure: its pages contribute
empty strings, and no readable document's text is dropped. -/
theorem c8_extraction_amended :
    (∀ pdf_files : List PdfFile, (∃ f ∈ pdf_files, isErr f = true) →
        isErr (get_pdf_text pdf_files) = true) ∧
      ∀ pagess : List (List Str),
        isErr (get_pdf_text (pagess.map Except.ok)) = false := by
  constructor
  · intro pdf_files h
    exact pdfStep_foldl_isErr pdf_files [] h
  · intro pagess
    unfold get_pdf_text
    rw [pdfStep_foldl_ok]
    rfl

/-- Witness for the amended C8: one unreadable file makes extraction fail;
one readable file with a single no-text page does not. -/
theorem c8_extraction_amended_witness :
    isErr (get_pdf_text [Except.error PdfReadError.readError]) = true ∧
      isErr (get_pdf_text (([[[]]] : List (List Str)).map Except.ok)) = false :=
  ⟨c8_extraction_amended.1 [Except.error PdfReadError.readError]
      ⟨Except.error PdfReadError.readError, List.mem_singleton.mpr rfl, rfl⟩,
    c8_extraction_amended.2 [[[]]]⟩

/-- Claim C9: the chunker maps the empty input to the empty chunk sequence
without failing, and it is a pure function of its input — in this functional
embedding (mirroring the source, which builds a fresh splitter from the same
constants on every call and consults no other state), two applications to
equal inputs are definitionally the same output. -/
theorem c9_empty_input_and_pure :
    get_text_chunks [] = [] ∧
      ∀ t1 t2 : Str, t1 = t2 → get_text_chunks t1 = get_text_chunks t2 :=
  ⟨rfl, fun _ _ h => h ▸ rfl⟩

/-- Witness for C9's pure-function conjunct at a concrete input. -/
theorem c9_empty_input_and_pure_witness :
    get_text_chunks [] = [] ∧ get_text_chunks [aChar] = get_text_chunks [aChar] :=
  ⟨c9_empty_input_and_pure.1, c9_empty_input_and_pure.2 [aChar] [aChar] rfl⟩

/-- Claim C10: `get_pdf_text` on the empty file sequence returns the empty
string without failing, and in general (on readable files) it returns
exactly the concatenation of every document's per-page texts, pages in
native order within each document, documents in caller order. -/
theorem c10_concat_order :
    get_pdf_text [] = Except.ok [] ∧
      ∀ pagess : List (List Str),
        get_pdf_text (pagess.map Except.ok)
          = Except.ok (concatAll (pagess.map concatAll)) := by
  constructor
  · rfl
  · intro pagess
    unfold get_pdf_text
    rw [pdfStep_foldl_ok]
    rfl
